import Mathlib

/-!
Verification of the streaming chat bot (`bot/telegram_bot.py`) against its
natural-language specification.

Modelling conventions:
* Python `str` values carrying message text are modelled as `List Char`;
  configuration strings that are only compared for equality stay `String`.
* Python `float` money amounts (budgets, costs) are modelled as `ℚ`; the
  claims under study are about comparison boundaries, which `ℚ` captures.
* The lazily created per-identity usage trackers (`self.usage`, a dict from
  user id / the literal key `'guests'` to `UsageTracker`) are modelled as an
  association list from `UKey` to the tracker's current month cost — the only
  tracker datum the budget gates read (`get_current_cost()[1]`).  A tracker
  created during the gate carries an externally determined initial month cost
  (`GateCtx.initCost`), abstracting `UsageTracker.__init__`'s load of any
  persisted usage log.
-/

/-- Key of an entry of `self.usage`: either a numeric Telegram user id or the
distinguished string key `'guests'` shared by unenumerated group members. -/
inductive UKey
  | user (id : Int)
  | guests
deriving DecidableEq

/-- Look up the month cost of the usage tracker stored under `k`
(`self.usage[k].get_current_cost()[1]`); `none` when no tracker exists. -/
def usageLookup (usage : List (UKey × ℚ)) (k : UKey) : Option ℚ :=
  (usage.find? (fun p => decide (p.1 = k))).map (·.2)

/-- `if k not in self.usage: self.usage[k] = UsageTracker(...)` — create the
tracker entry for `k` if absent; a fresh tracker starts with month cost
`initCost k` (the cost it reports right after construction). -/
def ensureTracker (initCost : UKey → ℚ) (usage : List (UKey × ℚ)) (k : UKey) :
    List (UKey × ℚ) :=
  if (usageLookup usage k).isSome then usage else usage ++ [(k, initCost k)]

/-- The bot configuration fields read by the access/budget gates
(`telegram_bot.py`):
* `allowed_user_ids`: the comma-split value of config `allowed_user_ids`
  (the raw wildcard string `"*"` splits to the singleton list `["*"]`);
* `admin_user_ids`: the comma-split value of config `admin_user_ids`
  (the raw sentinel `"-"` splits to `["-"]`);
* `monthly_user_budgets`: `none` models the raw wildcard string `"*"`;
  otherwise the comma-split, parsed list of per-user monthly budgets;
* `monthly_guest_budget`: the shared guest pool's monthly budget. -/
structure BotConfig where
  allowed_user_ids : List String
  admin_user_ids : List String
  monthly_user_budgets : Option (List ℚ)
  monthly_guest_budget : ℚ

/-- The per-update facts the gates obtain from the transport:
the acting user's id, whether the chat is a group/supergroup
(`is_group_chat`), the membership test `is_user_in_group` for each entry of
the allowed list, and the initial month cost carried by a tracker created
during the gate (see module docstring). -/
structure GateCtx where
  userId : Int
  isGroup : Bool
  memberInGroup : String → Bool
  initCost : UKey → ℚ

/-- Log messages emitted by the budget functions. -/
inductive LogMsg
  | noBudgetWarning (userId : Int)
  | guestBudgetWarning
  | groupNotAllowedInfo (userId : Int)
deriving DecidableEq

/-- `ChatGPTTelegramBot.is_admin` (lines 561-576): the sentinel `'-'` means no
admin; otherwise the user is an admin iff its id's decimal string occurs in
the comma-split admin list. -/
def is_admin (cfg : BotConfig) (userId : Int) : Bool :=
  if cfg.admin_user_ids = ["-"] then false
  else cfg.admin_user_ids.contains (toString userId)

/-- `ChatGPTTelegramBot.is_allowed` (lines 536-559): wildcard config allows
everyone; admins are allowed; enumerated users are allowed; in a group chat a
non-enumerated user is allowed iff some enumerated user is a group member. -/
def is_allowed (cfg : BotConfig) (ctx : GateCtx) : Bool :=
  if cfg.allowed_user_ids = ["*"] then true
  else if is_admin cfg ctx.userId then true
  else if cfg.allowed_user_ids.contains (toString ctx.userId) then true
  else if ctx.isGroup then
    (cfg.allowed_user_ids.find? (fun u => ctx.memberInGroup u)).isSome
  else false

/-- `ChatGPTTelegramBot.is_within_budget` (lines 605-645), returning the
verdict, the updated `self.usage` store, and the log messages emitted.
The tracker for the acting user is created first, unconditionally; then:
admin ⇒ allowed; budget wildcard ⇒ allowed; enumerated user ⇒ compare its
positional budget strictly (`user_budget > cost_month`), with a warning and
denial when the budget list is too short; otherwise, in a group chat with an
enumerated member present, create the guest tracker and compare the guest
budget inclusively (`monthly_guest_budget >= guest cost`); else deny. -/
def is_within_budget (cfg : BotConfig) (ctx : GateCtx)
    (usage : List (UKey × ℚ)) : Bool × List (UKey × ℚ) × List LogMsg :=
  let usage1 := ensureTracker ctx.initCost usage (UKey.user ctx.userId)
  if is_admin cfg ctx.userId then (true, usage1, [])
  else
    match cfg.monthly_user_budgets with
    | none => (true, usage1, [])
    | some user_budgets =>
      match cfg.allowed_user_ids.findIdx? (fun u => u == toString ctx.userId) with
      | some user_index =>
        if user_budgets.length ≤ user_index then
          (false, usage1, [LogMsg.noBudgetWarning ctx.userId])
        else
          let user_budget := user_budgets.getD user_index 0
          let cost_month := (usageLookup usage1 (UKey.user ctx.userId)).getD 0
          (decide (user_budget > cost_month), usage1, [])
      | none =>
        if ctx.isGroup then
          match cfg.allowed_user_ids.find? (fun u => ctx.memberInGroup u) with
          | some _ =>
            let usage2 := ensureTracker ctx.initCost usage1 UKey.guests
            let guest_cost := (usageLookup usage2 UKey.guests).getD 0
            if cfg.monthly_guest_budget ≥ guest_cost then (true, usage2, [])
            else (false, usage2, [LogMsg.guestBudgetWarning])
          | none => (false, usage1, [LogMsg.groupNotAllowedInfo ctx.userId])
        else (false, usage1, [])

/-- Result type of `get_remaining_budget`: `float('inf')` or a finite amount. -/
inductive RemainingBudget
  | infinite
  | finite (amount : ℚ)
deriving DecidableEq

/-- `ChatGPTTelegramBot.get_remaining_budget` (lines 578-603): infinite for
admins and under the budget wildcard; for an enumerated user the positional
budget minus the month cost, with `0.0` and a warning when the budget list is
too short; `0.0` for everyone else. -/
def get_remaining_budget (cfg : BotConfig) (ctx : GateCtx)
    (usage : List (UKey × ℚ)) :
    RemainingBudget × List (UKey × ℚ) × List LogMsg :=
  let usage1 := ensureTracker ctx.initCost usage (UKey.user ctx.userId)
  if is_admin cfg ctx.userId then (RemainingBudget.infinite, usage1, [])
  else
    match cfg.monthly_user_budgets with
    | none => (RemainingBudget.infinite, usage1, [])
    | some user_budgets =>
      match cfg.allowed_user_ids.findIdx? (fun u => u == toString ctx.userId) with
      | some user_index =>
        if user_budgets.length ≤ user_index then
          (RemainingBudget.finite 0, usage1, [LogMsg.noBudgetWarning ctx.userId])
        else
          let user_budget := user_budgets.getD user_index 0
          let cost_month := (usageLookup usage1 (UKey.user ctx.userId)).getD 0
          (RemainingBudget.finite (user_budget - cost_month), usage1, [])
      | none => (RemainingBudget.finite 0, usage1, [])

/-- `ChatGPTTelegramBot.split_into_chunks` (lines 647-651):
`[text[i:i + chunk_size] for i in range(0, len(text), chunk_size)]`.
`range(0, n, step)` for `step > 0` enumerates `ceil(n / step)` indices
`0, step, 2*step, …`, and the slice `text[i:i+chunk_size]` is
`(text.drop i).take chunk_size`. -/
def split_into_chunks (text : List Char) (chunk_size : Nat) : List (List Char) :=
  (List.range ((text.length + chunk_size - 1) / chunk_size)).map
    (fun i => (text.drop (i * chunk_size)).take chunk_size)

theorem split_into_chunks_nil (chunk_size : Nat) :
    split_into_chunks [] chunk_size = [] := by
  rcases chunk_size with _ | n <;> simp [split_into_chunks, Nat.div_eq_of_lt]

theorem ceil_div_pos {n cs : Nat} (hcs : 0 < cs) (hn : 0 < n) :
    (n + cs - 1) / cs = (n - 1) / cs + 1 := by
  have h1 : n + cs - 1 = (n - 1) + cs := by omega
  rw [h1, Nat.add_div_right _ hcs]

/-- Unfolding equation: for a positive chunk size and nonempty text, the chunk
list is the first `chunk_size` characters followed by the chunks of the rest. -/
theorem split_into_chunks_cons (text : List Char) (cs : Nat) (hcs : 0 < cs)
    (ht : text ≠ []) :
    split_into_chunks text cs =
      text.take cs :: split_into_chunks (text.drop cs) cs := by
  have hlen : 0 < text.length := List.length_pos.mpr ht
  have hcount : ((text.drop cs).length + cs - 1) / cs = (text.length - 1) / cs := by
    rw [List.length_drop]
    by_cases h : cs ≤ text.length
    · congr 1; omega
    · have h1 : text.length - cs = 0 := by omega
      rw [h1, Nat.zero_add, Nat.div_eq_of_lt (by omega),
        Nat.div_eq_of_lt (by omega)]
  unfold split_into_chunks
  rw [ceil_div_pos hcs hlen, List.range_succ_eq_map, hcount]
  simp only [List.map_cons, Nat.zero_mul, List.drop_zero, List.map_map]
  congr 1
  apply List.map_congr_left
  intro i _
  simp only [Function.comp_apply, List.drop_drop]
  congr 2
  rw [Nat.succ_mul, Nat.add_comm]

theorem split_into_chunks_drop_nil (text : List Char) (cs : Nat)
    (hle : text.length ≤ cs) : split_into_chunks (text.drop cs) cs = [] := by
  rw [List.drop_eq_nil_of_le hle, split_into_chunks_nil]

/-- C1. Chunking contract: for every text and positive capacity, the chunks
concatenate back to the text, every chunk except possibly the last has length
exactly the capacity, every chunk has length at most the capacity, and the
number of chunks is `ceil (length / capacity)`. -/
theorem split_into_chunks_spec (text : List Char) (capacity : Nat)
    (hcap : 0 < capacity) :
    (split_into_chunks text capacity).flatten = text ∧
    (∀ c ∈ (split_into_chunks text capacity).dropLast, c.length = capacity) ∧
    (∀ c ∈ split_into_chunks text capacity, c.length ≤ capacity) ∧
    (split_into_chunks text capacity).length =
      (text.length + capacity - 1) / capacity := by
  refine ⟨?_, ?_, ?_, ?_⟩
  · -- concatenation reconstructs the text
    have H : ∀ n (t : List Char), t.length ≤ n →
        (split_into_chunks t capacity).flatten = t := by
      intro n
      induction n with
      | zero =>
        intro t h
        have : t = [] := List.eq_nil_of_length_eq_zero (Nat.le_zero.mp h)
        subst this; simp [split_into_chunks_nil]
      | succ n ih =>
        intro t h
        rcases eq_or_ne t [] with rfl | ht
        · simp [split_into_chunks_nil]
        · rw [split_into_chunks_cons t capacity hcap ht, List.flatten_cons,
            ih (t.drop capacity) (by rw [List.length_drop]; omega),
            List.take_append_drop]
    exact H text.length text le_rfl
  · -- all chunks but the last have length exactly `capacity`
    have H : ∀ n (t : List Char), t.length ≤ n →
        ∀ c ∈ (split_into_chunks t capacity).dropLast, c.length = capacity := by
      intro n
      induction n with
      | zero =>
        intro t h
        have : t = [] := List.eq_nil_of_length_eq_zero (Nat.le_zero.mp h)
        subst this; simp [split_into_chunks_nil]
      | succ n ih =>
        intro t h c hc
        rcases eq_or_ne t [] with rfl | ht
        · simp [split_into_chunks_nil] at hc
        · rw [split_into_chunks_cons t capacity hcap ht] at hc
          by_cases hle : t.length ≤ capacity
          · rw [split_into_chunks_drop_nil t capacity hle] at hc
            simp at hc
          · have hdrop : t.drop capacity ≠ [] := by
              intro hnil
              have := congrArg List.length hnil
              rw [List.length_drop] at this
              simp at this; omega
            have htail : split_into_chunks (t.drop capacity) capacity ≠ [] := by
              rw [split_into_chunks_cons _ capacity hcap hdrop]; simp
            rw [List.dropLast_cons_of_ne_nil htail] at hc
            rcases List.mem_cons.mp hc with rfl | hc'
            · rw [List.length_take]; omega
            · exact ih (t.drop capacity) (by rw [List.length_drop]; omega) c hc'
    exact H text.length text le_rfl
  · -- all chunks have length at most `capacity`
    intro c hc
    unfold split_into_chunks at hc
    rcases List.mem_map.mp hc with ⟨i, _, rfl⟩
    rw [List.length_take]; omega
  · simp [split_into_chunks]

/-- Witness for C1 at a concrete input: text of 8 characters, capacity 3. -/
theorem split_into_chunks_spec_witness :
    (split_into_chunks "hello all".toList 3).flatten = "hello all".toList ∧
    (∀ c ∈ (split_into_chunks "hello all".toList 3).dropLast, c.length = 3) ∧
    (∀ c ∈ split_into_chunks "hello all".toList 3, c.length ≤ 3) ∧
    (split_into_chunks "hello all".toList 3).length =
      ("hello all".toList.length + 3 - 1) / 3 :=
  split_into_chunks_spec "hello all".toList 3 (by decide)

/-- The Telegram message-size limit, the default `chunk_size` of
`split_into_chunks` used by the streaming loop. -/
def telegram_chunk_size : Nat := 4096

/-- The `tokens` field of a stream item: the magic string `'not_finished'`
while the stream is still running, or the final token count (the source keeps
it as a string and applies `int()` on the last frame; we carry the parsed
value). -/
inductive TokenField
  | notFinished
  | finished (count : Int)
deriving DecidableEq

/-- One item yielded by `openai.get_chat_response_stream`: the full text
accumulated so far and the token field. -/
structure Frame where
  content : List Char
  tokens : TokenField
deriving DecidableEq

/-- Outcome of one `edit_message_with_retry` call as observed by the loop in
`prompt`: normal return (including the swallowed "Message is not modified"
case and the successful no-markdown retry), a propagated `RetryAfter` with the
server-supplied wait, a propagated `TimedOut`, or any other exception. -/
inductive EditResult
  | ok
  | retryAfter (seconds : Nat)
  | timedOut
  | failed
deriving DecidableEq

/-- Transport outcomes the environment supplies for one loop iteration:
the result of the rollover-branch `send_message` (`none` = raised), whether
the first-frame `delete_message` returned normally, the result of the
first-frame `send_message`, and the outcome of the cadence edit. -/
structure StepEnv where
  rolloverSend : Option Nat
  firstDeleteOk : Bool
  firstSend : Option Nat
  edit : EditResult
deriving DecidableEq

/-- Duration of an `asyncio.sleep` performed by the loop: the server-supplied
`e.retry_after` seconds, the fixed `0.5`-second timeout pause, or the fixed
`0.01`-second pacing delay after a successful edit. -/
inductive SleepLen
  | serverRetry (seconds : Nat)
  | halfSecond
  | pacing
deriving DecidableEq

/-- Observable transport/scheduler actions performed by one loop iteration,
in program order. -/
inductive BotAction
  | editMsg (messageId : Nat) (text : List Char)
  | sendMsg (text : List Char)
  | deleteMsg (messageId : Nat)
  | sleep (duration : SleepLen)
deriving DecidableEq

/-- The loop-local state of the streaming branch of `prompt`
(lines 330-334): `i`, `prev`, `sent_message` (its message id), `backoff`,
`chunk`, and the `total_tokens` local — `none` while the variable is still
unbound (reading it then raises `NameError`). -/
structure StreamState where
  i : Nat
  prev : List Char
  sentMessage : Option Nat
  backoff : Nat
  chunk : Nat
  totalTokens : Option Int
deriving DecidableEq

/-- The state at the top of the `async for` loop (lines 330-334):
`i = 0`, `prev = ''`, `sent_message = None`, `backoff = 0`, `chunk = 0`,
`total_tokens` unbound. -/
def initState : StreamState := ⟨0, [], none, 0, 0, none⟩

/-- Flood-control base cutoff (lines 358-362): a step function of the content
length, with larger steps for group chats. -/
def base_cutoff (isGroupChat : Bool) (contentLen : Nat) : Nat :=
  if isGroupChat then
    if contentLen > 1000 then 180
    else if contentLen > 200 then 120
    else if contentLen > 50 then 90
    else 50
  else
    if contentLen > 1000 then 90
    else if contentLen > 200 then 45
    else if contentLen > 50 then 25
    else 15

/-- `abs(len(content) - len(prev))`. -/
def lenDelta (a b : Nat) : Nat := ((a : Int) - (b : Int)).natAbs

/-- Lines 401-403, reached when the iteration falls off the bottom of the
loop body (no `continue`): `i += 1`, and on a final frame
`total_tokens = int(tokens)`. -/
def finishFrame (f : Frame) (s : StreamState) : StreamState :=
  { s with
    i := s.i + 1,
    totalTokens := match f.tokens with
      | TokenField.notFinished => s.totalTokens
      | TokenField.finished n => some n }

/-- Lines 343-356, the size-boundary rollover: `chunk += 1`; best-effort edit
of the currently open message with the second-to-last chunk (`chunks[-2]`),
exception swallowed; best-effort `send_message` of the last chunk opening a
new message (falling back to `"..."` if that chunk is empty), exception
swallowed; then `continue`.  When `sent_message` is `None`, evaluating
`sent_message.message_id` / `sent_message.chat_id` raises before either call
is attempted, and both `except: pass` handlers swallow it. -/
def rollover_phase (env : StepEnv) (s : StreamState)
    (chunks : List (List Char)) : StreamState × List BotAction :=
  let content := chunks.getLastD []
  let newText := if content.length > 0 then content else "...".toList
  let s1 := { s with chunk := s.chunk + 1 }
  match s.sentMessage with
  | none => (s1, [])
  | some mid =>
    let acts := [BotAction.editMsg mid (chunks.dropLast.getLastD []),
                 BotAction.sendMsg newText]
    match env.rolloverSend with
    | some mid2 => ({ s1 with sentMessage := some mid2 }, acts)
    | none => (s1, acts)

/-- Lines 366-377, the first frame of the turn (`i == 0`): delete the stale
message from a preceding rollover if one exists, then send a new message
seeded with the current content, replying to the trigger; any exception makes
the loop `continue` with `i` still `0`.  A failed delete aborts the `try`
before the send is attempted. -/
def first_frame_phase (env : StepEnv) (s : StreamState) (f : Frame)
    (content : List Char) : StreamState × List BotAction :=
  match s.sentMessage with
  | some mid =>
    if env.firstDeleteOk then
      match env.firstSend with
      | some mid2 =>
        (finishFrame f { s with sentMessage := some mid2 },
         [BotAction.deleteMsg mid, BotAction.sendMsg content])
      | none => (s, [BotAction.deleteMsg mid, BotAction.sendMsg content])
    else (s, [BotAction.deleteMsg mid])
  | none =>
    match env.firstSend with
    | some mid2 =>
      (finishFrame f { s with sentMessage := some mid2 },
       [BotAction.sendMsg content])
    | none => (s, [BotAction.sendMsg content])

/-- Lines 379-399, the edit cadence for subsequent frames (`i != 0`): an edit
is attempted when the length delta exceeds `base_cutoff + backoff` or the
frame is final; `prev` is updated before the attempt.  `RetryAfter` adds 5 to
`backoff`, sleeps the server-supplied duration and continues; `TimedOut` adds
5 and sleeps 0.5; any other exception adds 5 and continues; success sleeps
0.01 and falls through.  When `sent_message` is `None`, evaluating
`sent_message.message_id` raises before the edit call, landing in the generic
`except Exception` handler (`backoff += 5`, continue). -/
def edit_phase (isGroupChat : Bool) (env : StepEnv) (s : StreamState)
    (f : Frame) (content : List Char) : StreamState × List BotAction :=
  let cutoff := base_cutoff isGroupChat content.length + s.backoff
  if lenDelta content.length s.prev.length > cutoff ∨
      f.tokens ≠ TokenField.notFinished then
    let s1 := { s with prev := content }
    match s.sentMessage with
    | none => ({ s1 with backoff := s1.backoff + 5 }, [])
    | some mid =>
      match env.edit with
      | EditResult.ok =>
        (finishFrame f s1,
         [BotAction.editMsg mid content, BotAction.sleep SleepLen.pacing])
      | EditResult.retryAfter r =>
        ({ s1 with backoff := s1.backoff + 5 },
         [BotAction.editMsg mid content, BotAction.sleep (SleepLen.serverRetry r)])
      | EditResult.timedOut =>
        ({ s1 with backoff := s1.backoff + 5 },
         [BotAction.editMsg mid content, BotAction.sleep SleepLen.halfSecond])
      | EditResult.failed =>
        ({ s1 with backoff := s1.backoff + 5 }, [BotAction.editMsg mid content])
  else (finishFrame f s, [])

/-- One iteration of the `async for content, tokens in stream_response` loop
(lines 336-403): skip all-whitespace frames; chunk the accumulated text and
take the rollover branch when a new size boundary was crossed; otherwise
(content fits the open message — after `content = chunks[-1]` when the
boundary was already consumed) run the first-frame send or the edit cadence. -/
def stream_step (isGroupChat : Bool) (env : StepEnv) (s : StreamState)
    (f : Frame) : StreamState × List BotAction :=
  if f.content.all Char.isWhitespace then (s, [])
  else
    let chunks := split_into_chunks f.content telegram_chunk_size
    if chunks.length > 1 ∧ s.chunk ≠ chunks.length - 1 then
      rollover_phase env s chunks
    else
      let content := if chunks.length > 1 then chunks.getLastD [] else f.content
      if s.i = 0 then first_frame_phase env s f content
      else edit_phase isGroupChat env s f content

/-- The whole streaming loop: left-to-right over the yielded frames, each
paired with the transport outcomes of its iteration; returns the final state
and the concatenated action trace. -/
def stream_run (isGroupChat : Bool) (s : StreamState) :
    List (Frame × StepEnv) → StreamState × List BotAction
  | [] => (s, [])
  | (f, env) :: rest =>
    let (s1, acts) := stream_step isGroupChat env s f
    let (s2, acts2) := stream_run isGroupChat s1 rest
    (s2, acts ++ acts2)

/-- Lines 419-427, the usage-recording block after the stream: add
`total_tokens` to the user's tracker and, for an unenumerated user when the
guest tracker exists, to the guest tracker.  The whole block sits in a bare
`try/except: pass`; when `total_tokens` was never assigned, reading it raises
`NameError` and the handler silently swallows it — nothing is recorded and
nothing is logged.  Returns (tokens recorded for the user, tokens recorded
for guests, log messages emitted). -/
def record_usage_epilogue (s : StreamState)
    (userEnumerated guestsTrackerExists : Bool) :
    Option Int × Option Int × List LogMsg :=
  match s.totalTokens with
  | none => (none, none, [])
  | some t =>
    (some t, if !userEnumerated && guestsTrackerExists then some t else none, [])

/-- When the frame has visible content that fits in one chunk and `i ≠ 0`,
the iteration runs the edit cadence on the frame's full content. -/
theorem stream_step_eq_edit_phase (g : Bool) (env : StepEnv) (s : StreamState)
    (f : Frame) (hw : f.content.all Char.isWhitespace = false)
    (hchunks : (split_into_chunks f.content telegram_chunk_size).length = 1)
    (hi : s.i ≠ 0) :
    stream_step g env s f = edit_phase g env s f f.content := by
  unfold stream_step
  simp [hw, hchunks, hi]

/-- C9. The flood-control base cutoff is monotonically non-decreasing in the
content length for each chat kind; for every content length the group cutoff
is strictly larger than the private one; and the live threshold the edit
cadence applies to the length delta is exactly `base_cutoff + backoff`:
for a subsequent single-chunk frame with an open message, an edit is
attempted iff the delta exceeds `base_cutoff(len, kind) + backoff` or the
frame is final. -/
theorem cutoff_monotone_group_stricter :
    (∀ (g : Bool) (l1 l2 : Nat), l1 ≤ l2 →
      base_cutoff g l1 ≤ base_cutoff g l2) ∧
    (∀ l : Nat, base_cutoff false l < base_cutoff true l) ∧
    (∀ (g : Bool) (env : StepEnv) (s : StreamState) (f : Frame) (mid : Nat),
      s.i ≠ 0 → s.sentMessage = some mid →
      f.content.all Char.isWhitespace = false →
      (split_into_chunks f.content telegram_chunk_size).length = 1 →
      ((∃ m t, BotAction.editMsg m t ∈ (stream_step g env s f).2) ↔
        (lenDelta f.content.length s.prev.length >
            base_cutoff g f.content.length + s.backoff ∨
          f.tokens ≠ TokenField.notFinished))) := by
  refine ⟨?_, ?_, ?_⟩
  · intro g l1 l2 h
    cases g <;> simp only [base_cutoff] <;> split_ifs <;> omega
  · intro l
    simp only [base_cutoff, Bool.false_eq_true, if_false, if_true]
    split_ifs <;> omega
  · intro g env s f mid hi hsm hw hchunks
    rw [stream_step_eq_edit_phase g env s f hw hchunks hi]
    unfold edit_phase
    by_cases hcond : lenDelta f.content.length s.prev.length >
        base_cutoff g f.content.length + s.backoff ∨
        f.tokens ≠ TokenField.notFinished
    · simp only [hcond, if_pos, hsm, iff_true]
      cases env.edit <;> exact ⟨mid, f.content, by simp⟩
    · simp only [hcond, if_neg, iff_false, not_exists]
      simp [hcond]
  
/-- Witness for C9 at concrete inputs: monotonicity at lengths 30 ≤ 300 in a
group chat; strictness at length 500; and a concrete subsequent final frame
whose delta (3) is below the live threshold (15) yet is edited. -/
theorem cutoff_monotone_group_stricter_witness :
    base_cutoff true 30 ≤ base_cutoff true 300 ∧
    base_cutoff false 500 < base_cutoff true 500 ∧
    (∃ m t, BotAction.editMsg m t ∈
      (stream_step false ⟨none, true, none, EditResult.ok⟩
        ⟨1, "ok".toList, some 4, 0, 0, none⟩
        ⟨"okay!".toList, TokenField.finished 8⟩).2) := by
  refine ⟨cutoff_monotone_group_stricter.1 true 30 300 (by decide),
    cutoff_monotone_group_stricter.2.1 500,
    (cutoff_monotone_group_stricter.2.2 false ⟨none, true, none, EditResult.ok⟩
      ⟨1, "ok".toList, some 4, 0, 0, none⟩
      ⟨"okay!".toList, TokenField.finished 8⟩ 4
      (by decide) (by decide) (by decide) (by decide)).mpr ?_⟩
  right
  decide

/-- C5. Final-frame flush: for every frame after the first sent frame whose
trimmed text is non-empty, which fits in a single chunk and whose token field
differs from the `'not_finished'` sentinel, the loop attempts an edit of the
open message with the full accumulated content — whatever the length delta
and cutoff. -/
theorem final_frame_forces_edit (g : Bool) (env : StepEnv) (s : StreamState)
    (f : Frame) (mid : Nat) (n : Int)
    (hi : s.i ≠ 0) (hsm : s.sentMessage = some mid)
    (hw : f.content.all Char.isWhitespace = false)
    (hchunks : (split_into_chunks f.content telegram_chunk_size).length = 1)
    (hfin : f.tokens = TokenField.finished n) :
    BotAction.editMsg mid f.content ∈ (stream_step g env s f).2 := by
  rw [stream_step_eq_edit_phase g env s f hw hchunks hi]
  unfold edit_phase
  have hcond : lenDelta f.content.length s.prev.length >
      base_cutoff g f.content.length + s.backoff ∨
      f.tokens ≠ TokenField.notFinished := by
    right; rw [hfin]; simp
  simp only [hcond, if_pos, hsm]
  cases env.edit <;> simp

/-- Witness for C5: a final frame with delta 5 ≤ live threshold 15 is still
edited with the full content. -/
theorem final_frame_forces_edit_witness :
    BotAction.editMsg 3 "ok done".toList ∈
      (stream_step false ⟨none, true, none, EditResult.ok⟩
        ⟨1, "ok".toList, some 3, 0, 0, none⟩
        ⟨"ok done".toList, TokenField.finished 9⟩).2 :=
  final_frame_forces_edit false ⟨none, true, none, EditResult.ok⟩
    ⟨1, "ok".toList, some 3, 0, 0, none⟩
    ⟨"ok done".toList, TokenField.finished 9⟩ 3 9
    (by decide) (by decide) (by decide) (by decide) (by decide)

/-- C4 (amended). Rate-limited edit: when an edit attempt on a subsequent
single-chunk frame raises `RetryAfter r`, the iteration adds the fixed
increment 5 to the accumulated backoff penalty, sleeps exactly the
server-supplied `r` seconds, records the attempted content as last-rendered,
and then `continue`s — consuming the frame without incrementing `i`, so the
next loop cycle processes the NEXT frame of the stream rather than retrying
this frame's content. -/
theorem rate_limit_backoff_step (g : Bool) (env : StepEnv) (s : StreamState)
    (f : Frame) (mid r : Nat)
    (hi : s.i ≠ 0) (hsm : s.sentMessage = some mid)
    (hw : f.content.all Char.isWhitespace = false)
    (hchunks : (split_into_chunks f.content telegram_chunk_size).length = 1)
    (hcond : lenDelta f.content.length s.prev.length >
        base_cutoff g f.content.length + s.backoff ∨
      f.tokens ≠ TokenField.notFinished)
    (hedit : env.edit = EditResult.retryAfter r) :
    stream_step g env s f =
      ({ s with prev := f.content, backoff := s.backoff + 5 },
       [BotAction.editMsg mid f.content,
        BotAction.sleep (SleepLen.serverRetry r)]) := by
  rw [stream_step_eq_edit_phase g env s f hw hchunks hi]
  unfold edit_phase
  simp only [hcond, if_pos, hsm, hedit]

/-- Witness for the amended C4: a rate-limited edit of a 20-character frame
(delta 18 > threshold 15) from the state after one sent frame. -/
theorem rate_limit_backoff_step_witness :
    stream_step false ⟨none, true, none, EditResult.retryAfter 7⟩
      ⟨1, "ab".toList, some 2, 0, 0, none⟩
      ⟨"twenty characters aa".toList, TokenField.notFinished⟩ =
      (⟨1, "twenty characters aa".toList, some 2, 5, 0, none⟩,
       [BotAction.editMsg 2 "twenty characters aa".toList,
        BotAction.sleep (SleepLen.serverRetry 7)]) :=
  rate_limit_backoff_step false ⟨none, true, none, EditResult.retryAfter 7⟩
    ⟨1, "ab".toList, some 2, 0, 0, none⟩
    ⟨"twenty characters aa".toList, TokenField.notFinished⟩ 2 7
    (by decide) (by decide) (by decide) (by decide) (by decide) (by decide)

/-- Accumulated text of the first frame of the C4 stream. -/
def c4text1 : List Char := "hello".toList

/-- Accumulated text of the second (rate-limited) frame of the C4 stream. -/
def c4text2 : List Char := "The quick brown fox jumps".toList

/-- Accumulated text of the third (final) frame of the C4 stream. -/
def c4text3 : List Char := "The quick brown fox jumps over the lazy dog".toList

/-- A three-frame private-chat stream: the first frame is sent as message 1,
the edit for the second frame raises `RetryAfter 3`, the third (final) frame's
edit succeeds. -/
def c4input : List (Frame × StepEnv) :=
  [(⟨c4text1, TokenField.notFinished⟩,
    ⟨none, true, some 1, EditResult.ok⟩),
   (⟨c4text2, TokenField.notFinished⟩,
    ⟨none, true, none, EditResult.retryAfter 3⟩),
   (⟨c4text3, TokenField.finished 42⟩,
    ⟨none, true, none, EditResult.ok⟩)]

/-- C4 counterexample: on the concrete stream `c4input`, the edit of `c4text2`
raises `RetryAfter 3`; the loop sleeps 3 seconds and increases the backoff
penalty to 5 as claimed, but the edit attempted after the suspension carries
the NEXT frame's content `c4text3` (≠ `c4text2`): the same frame's content is
not retried — the loop advances to the next frame of the stream. -/
theorem rate_limit_advances_counterexample :
    (stream_run false initState c4input).2 =
      [BotAction.sendMsg c4text1,
       BotAction.editMsg 1 c4text2,
       BotAction.sleep (SleepLen.serverRetry 3),
       BotAction.editMsg 1 c4text3,
       BotAction.sleep SleepLen.pacing] ∧
    (stream_run false initState c4input).1.backoff = 5 ∧
    c4text3 ≠ c4text2 := by decide

/-- A frame carrying the `'not_finished'` sentinel never assigns
`total_tokens`, whatever path its iteration takes. -/
theorem stream_step_totalTokens_of_notFinished (g : Bool) (env : StepEnv)
    (s : StreamState) (f : Frame)
    (h : f.tokens = TokenField.notFinished) :
    ((stream_step g env s f).1).totalTokens = s.totalTokens := by
  unfold stream_step rollover_phase first_frame_phase edit_phase finishFrame
  simp only [h]
  repeat' split
  all_goals simp

/-- Over a whole stream of `'not_finished'` frames, `total_tokens` keeps its
initial (unbound) status. -/
theorem stream_run_totalTokens_of_notFinished (g : Bool)
    (l : List (Frame × StepEnv)) (s : StreamState)
    (h : ∀ p ∈ l, p.1.tokens = TokenField.notFinished) :
    ((stream_run g s l).1).totalTokens = s.totalTokens := by
  induction l generalizing s with
  | nil => rfl
  | cons p rest ih =>
    obtain ⟨f, env⟩ := p
    show ((stream_run g (stream_step g env s f).1 rest).1).totalTokens = _
    rw [ih (stream_step g env s f).1 (fun q hq => h q (List.mem_cons_of_mem _ hq)),
      stream_step_totalTokens_of_notFinished g env s f
        (h (f, env) (List.mem_cons_self _ _))]

/-- C6 (amended). When the stream ends without ever producing a final token
count, the turn adds no billable tokens to any tracker — reading the unbound
`total_tokens` raises `NameError`, so the recording block is skipped, which
meters the turn as zero — but the condition is silently swallowed by the bare
`except: pass`: no log message of any kind is emitted. -/
theorem missing_token_count_silent (g ue ge : Bool)
    (l : List (Frame × StepEnv))
    (h : ∀ p ∈ l, p.1.tokens = TokenField.notFinished) :
    ((stream_run g initState l).1).totalTokens = none ∧
    record_usage_epilogue (stream_run g initState l).1 ue ge =
      (none, none, []) := by
  have htok := stream_run_totalTokens_of_notFinished g l initState h
  refine ⟨htok, ?_⟩
  unfold record_usage_epilogue
  rw [htok]
  rfl

/-- A two-frame private-chat stream that never reports a token count. -/
def c6input : List (Frame × StepEnv) :=
  [(⟨"partial answer".toList, TokenField.notFinished⟩,
    ⟨none, true, some 1, EditResult.ok⟩),
   (⟨"partial answer, but the stream dies here".toList,
     TokenField.notFinished⟩,
    ⟨none, true, none, EditResult.ok⟩)]

/-- C6 counterexample: on the concrete stream `c6input` (no frame ever leaves
the `'not_finished'` sentinel), nothing is recorded — consistent with
metering zero billable tokens — but the emitted log list is empty: the
anomaly is silently ignored, not logged as the claim requires. -/
theorem missing_token_count_counterexample :
    (∀ p ∈ c6input, p.1.tokens = TokenField.notFinished) ∧
    ((stream_run false initState c6input).1).totalTokens = none ∧
    (record_usage_epilogue (stream_run false initState c6input).1
      false false).1 = none ∧
    (record_usage_epilogue (stream_run false initState c6input).1
      false false).2.2 = [] := by decide

/-- Witness for the amended C6, instantiated on the concrete stream
`c6input`. -/
theorem missing_token_count_silent_witness :
    ((stream_run false initState c6input).1).totalTokens = none ∧
    record_usage_epilogue (stream_run false initState c6input).1 false false =
      (none, none, []) :=
  missing_token_count_silent false false false c6input (by decide)

/-- A key absent from the store is found in a one-entry extension. -/
theorem usageLookup_append_self (usage : List (UKey × ℚ)) (k : UKey) (c : ℚ)
    (h : usageLookup usage k = none) :
    usageLookup (usage ++ [(k, c)]) k = some c := by
  unfold usageLookup at *
  have hnone : List.find? (fun p => decide (p.1 = k)) usage = none := by
    cases hf : List.find? (fun p => decide (p.1 = k)) usage with
    | none => rfl
    | some a => rw [hf] at h; simp at h
  rw [List.find?_append, hnone, Option.none_or]
  simp [List.find?]

/-- Appending entries does not change the value found for a present key. -/
theorem usageLookup_append_mono (usage t : List (UKey × ℚ)) (k' : UKey)
    (c : ℚ) (h : usageLookup usage k' = some c) :
    usageLookup (usage ++ t) k' = some c := by
  unfold usageLookup at *
  cases hf : List.find? (fun p => decide (p.1 = k')) usage with
  | none => rw [hf] at h; simp at h
  | some a =>
    rw [hf] at h
    rw [List.find?_append, hf, Option.or_some]
    exact h

/-- After `ensureTracker`, the ensured key is present. -/
theorem usageLookup_ensure_self (initCost : UKey → ℚ)
    (usage : List (UKey × ℚ)) (k : UKey) :
    (usageLookup (ensureTracker initCost usage k) k).isSome = true := by
  unfold ensureTracker
  cases hl : usageLookup usage k with
  | some c => simp [hl]
  | none =>
    simp only [hl, Option.isSome_none, Bool.false_eq_true, if_false]
    rw [usageLookup_append_self usage k _ hl]
    rfl

/-- `ensureTracker` never removes an entry: any key present before is still
present after. -/
theorem usageLookup_ensure_mono (initCost : UKey → ℚ)
    (usage : List (UKey × ℚ)) (k k' : UKey)
    (h : (usageLookup usage k').isSome = true) :
    (usageLookup (ensureTracker initCost usage k) k').isSome = true := by
  obtain ⟨c, hc⟩ := Option.isSome_iff_exists.mp h
  unfold ensureTracker
  by_cases hk : (usageLookup usage k).isSome
  · simp [hk, h]
  · simp only [hk, Bool.false_eq_true, if_false]
    rw [usageLookup_append_mono usage _ k' c hc]
    rfl

/-- The usage store returned by `is_within_budget` is one of the two
`ensureTracker` extensions of the input store. -/
theorem is_within_budget_usage_shape (cfg : BotConfig) (ctx : GateCtx)
    (usage : List (UKey × ℚ)) :
    (is_within_budget cfg ctx usage).2.1 =
        ensureTracker ctx.initCost usage (UKey.user ctx.userId) ∨
    (is_within_budget cfg ctx usage).2.1 =
        ensureTracker ctx.initCost
          (ensureTracker ctx.initCost usage (UKey.user ctx.userId))
          UKey.guests := by
  unfold is_within_budget
  repeat' split
  all_goals simp [apply_ite]

/-- C10. The budget gate lazily creates the acting identity's tracker entry,
whatever its verdict, and never removes any entry; hence the
`self.usage[user_id]` lookup performed by the usage-recording steps of the
priced handlers — which all run the gate first — cannot miss: the
missing-key branch is unreachable after the gate. -/
theorem budget_gate_creates_tracker :
    (∀ (cfg : BotConfig) (ctx : GateCtx) (usage : List (UKey × ℚ)),
      (usageLookup (is_within_budget cfg ctx usage).2.1
        (UKey.user ctx.userId)).isSome = true) ∧
    (∀ (cfg : BotConfig) (ctx : GateCtx) (usage : List (UKey × ℚ)) (k : UKey),
      (usageLookup usage k).isSome = true →
      (usageLookup (is_within_budget cfg ctx usage).2.1 k).isSome = true) := by
  constructor
  · intro cfg ctx usage
    rcases is_within_budget_usage_shape cfg ctx usage with h | h <;> rw [h]
    · exact usageLookup_ensure_self _ _ _
    · exact usageLookup_ensure_mono _ _ _ _ (usageLookup_ensure_self _ _ _)
  · intro cfg ctx usage k hk
    rcases is_within_budget_usage_shape cfg ctx usage with h | h <;> rw [h]
    · exact usageLookup_ensure_mono _ _ _ _ hk
    · exact usageLookup_ensure_mono _ _ _ _ (usageLookup_ensure_mono _ _ _ _ hk)

/-- Configuration for the C10 witness: user 5 enumerated with budget 10. -/
def cfgW10 : BotConfig := ⟨["5"], ["-"], some [10], 7⟩

/-- Context for the C10 witness: non-admin user 5 in a private chat. -/
def ctxW10 : GateCtx := ⟨5, false, fun _ => false, fun _ => 0⟩

/-- Witness for C10: from an empty store, the gate creates user 5's entry;
from a store holding only the guest entry, that entry survives the gate. -/
theorem budget_gate_creates_tracker_witness :
    (usageLookup (is_within_budget cfgW10 ctxW10 []).2.1
      (UKey.user 5)).isSome = true ∧
    (usageLookup (is_within_budget cfgW10 ctxW10 [(UKey.guests, 2)]).2.1
      UKey.guests).isSome = true :=
  ⟨budget_gate_creates_tracker.1 cfgW10 ctxW10 [],
   budget_gate_creates_tracker.2 cfgW10 ctxW10 [(UKey.guests, 2)] UKey.guests
     (by decide)⟩

/-- C7. Missing budget entry for an enumerated identity (wildcard budgets
disabled, non-admin): `is_within_budget` returns `False` and emits exactly
the no-budget warning, and `get_remaining_budget` reports `0.0` with the same
warning; both are total functions of their inputs — the condition is handled
by an early `return`, not an exception. -/
theorem missing_budget_entry_denied (cfg : BotConfig) (ctx : GateCtx)
    (usage : List (UKey × ℚ)) (bl : List ℚ) (idx : Nat)
    (hadmin : is_admin cfg ctx.userId = false)
    (hbl : cfg.monthly_user_budgets = some bl)
    (hidx : cfg.allowed_user_ids.findIdx?
      (fun u => u == toString ctx.userId) = some idx)
    (hlen : bl.length ≤ idx) :
    (is_within_budget cfg ctx usage).1 = false ∧
    (is_within_budget cfg ctx usage).2.2 =
      [LogMsg.noBudgetWarning ctx.userId] ∧
    (get_remaining_budget cfg ctx usage).1 = RemainingBudget.finite 0 ∧
    (get_remaining_budget cfg ctx usage).2.2 =
      [LogMsg.noBudgetWarning ctx.userId] := by
  unfold is_within_budget get_remaining_budget
  simp [hadmin, hbl, hidx, hlen]

/-- Configuration for the C7 witness: user 9 enumerated, empty budget list. -/
def cfgW7 : BotConfig := ⟨["9"], ["-"], some [], 0⟩

/-- Context for the C7 witness: non-admin user 9 in a private chat. -/
def ctxW7 : GateCtx := ⟨9, false, fun _ => false, fun _ => 0⟩

/-- Witness for C7: user 9 is enumerated at position 0 but the budget list is
empty, so the gate denies with a warning and reports zero remaining. -/
theorem missing_budget_entry_denied_witness :
    (is_within_budget cfgW7 ctxW7 []).1 = false ∧
    (is_within_budget cfgW7 ctxW7 []).2.2 = [LogMsg.noBudgetWarning 9] ∧
    (get_remaining_budget cfgW7 ctxW7 []).1 = RemainingBudget.finite 0 ∧
    (get_remaining_budget cfgW7 ctxW7 []).2.2 = [LogMsg.noBudgetWarning 9] :=
  missing_budget_entry_denied cfgW7 ctxW7 [] [] 0
    (by decide) (by decide) (by decide) (by decide)

/-- C2. Enumerated-identity budget boundary (non-admin, wildcard budgets
disabled): the gate allows iff the configured budget `B` at the identity's
position is strictly greater than the identity's month cost; in particular a
month cost equal to `B` is denied. -/
theorem enumerated_budget_strict_gate (cfg : BotConfig) (ctx : GateCtx)
    (usage : List (UKey × ℚ)) (bl : List ℚ) (idx : Nat) (B c : ℚ)
    (hadmin : is_admin cfg ctx.userId = false)
    (hbl : cfg.monthly_user_budgets = some bl)
    (hidx : cfg.allowed_user_ids.findIdx?
      (fun u => u == toString ctx.userId) = some idx)
    (hlen : idx < bl.length)
    (hB : bl.getD idx 0 = B)
    (hc : usageLookup (ensureTracker ctx.initCost usage (UKey.user ctx.userId))
      (UKey.user ctx.userId) = some c) :
    ((is_within_budget cfg ctx usage).1 = true ↔ B > c) ∧
    (c = B → (is_within_budget cfg ctx usage).1 = false) := by
  have hnotle : ¬ bl.length ≤ idx := Nat.not_le.mpr hlen
  unfold is_within_budget
  simp only [hadmin, Bool.false_eq_true, if_false, hbl, hidx, hc, hB,
    Option.getD_some]
  rw [if_neg hnotle]
  constructor
  · exact decide_eq_true_iff
  · intro hcb
    subst hcb
    exact decide_eq_false (lt_irrefl c)

/-- Configuration for the C2 witness: user 7 enumerated with budget 5. -/
def cfgW2 : BotConfig := ⟨["7"], ["9"], some [5], 0⟩

/-- Context for the C2 witness: non-admin user 7 in a private chat. -/
def ctxW2 : GateCtx := ⟨7, false, fun _ => false, fun _ => 0⟩

/-- Witness for C2: with budget 5 and month cost 2 the gate allows; with
month cost exactly 5 it denies. -/
theorem enumerated_budget_strict_gate_witness :
    (is_within_budget cfgW2 ctxW2 [(UKey.user 7, 2)]).1 = true ∧
    (is_within_budget cfgW2 ctxW2 [(UKey.user 7, 5)]).1 = false :=
  ⟨(enumerated_budget_strict_gate cfgW2 ctxW2 [(UKey.user 7, 2)] [5] 0 5 2
      (by decide) (by decide) (by decide) (by decide) (by decide)
      (by decide)).1.mpr (by norm_num),
   (enumerated_budget_strict_gate cfgW2 ctxW2 [(UKey.user 7, 5)] [5] 0 5 5
      (by decide) (by decide) (by decide) (by decide) (by decide)
      (by decide)).2 rfl⟩

/-- Configuration for the C3 counterexample: allowed list `["1"]`, budget
list `[3]` (wildcard disabled), guest monthly budget 5. -/
def cfgC3 : BotConfig := ⟨["1"], ["-"], some [3], 5⟩

/-- Context for the C3 counterexample: non-admin, non-enumerated user 2 in a
group chat where the enumerated user `"1"` is a member. -/
def ctxC3 : GateCtx := ⟨2, true, fun u => u == "1", fun _ => 0⟩

/-- Usage store for the C3 counterexample: the guest pool's month cost is
exactly the guest monthly budget (5). -/
def usageC3 : List (UKey × ℚ) := [(UKey.guests, 5)]

/-- C3 counterexample: user 2 is non-admin, not enumerated, acts in a group
chat with an enumerated member present, wildcard budgets are disabled, and
the guest pool's month cost equals the guest monthly budget exactly — the
claim says this is denied (strict-greater-than boundary, "the same way" as
the enumerated path), but `is_within_budget` returns `True` (allows): the
guest path compares with the inclusive `>=`. -/
theorem guest_budget_boundary_counterexample :
    is_admin cfgC3 ctxC3.userId = false ∧
    cfgC3.allowed_user_ids.findIdx?
      (fun u => u == toString ctxC3.userId) = none ∧
    ctxC3.isGroup = true ∧
    (cfgC3.allowed_user_ids.find? (fun u => ctxC3.memberInGroup u)).isSome
      = true ∧
    usageLookup usageC3 UKey.guests = some cfgC3.monthly_guest_budget ∧
    (is_within_budget cfgC3 ctxC3 usageC3).1 = true := by decide

/-- C3 (amended). Guest-pool budget boundary: for a non-admin, non-enumerated
identity in a group chat containing at least one enumerated member (wildcard
budgets disabled), the gate evaluates the shared guest pool's monthly budget
with an INCLUSIVE boundary — it allows iff the guest monthly budget is ≥ the
guest pool's month cost, so equality allows — unlike the enumerated path's
strict `>`. -/
theorem guest_budget_inclusive_gate (cfg : BotConfig) (ctx : GateCtx)
    (usage : List (UKey × ℚ)) (bl : List ℚ) (m : String) (g : ℚ)
    (hadmin : is_admin cfg ctx.userId = false)
    (hbl : cfg.monthly_user_budgets = some bl)
    (hidx : cfg.allowed_user_ids.findIdx?
      (fun u => u == toString ctx.userId) = none)
    (hgrp : ctx.isGroup = true)
    (hmem : cfg.allowed_user_ids.find? (fun u => ctx.memberInGroup u) = some m)
    (hg : usageLookup
      (ensureTracker ctx.initCost
        (ensureTracker ctx.initCost usage (UKey.user ctx.userId)) UKey.guests)
      UKey.guests = some g) :
    ((is_within_budget cfg ctx usage).1 = true ↔
      cfg.monthly_guest_budget ≥ g) ∧
    (g = cfg.monthly_guest_budget →
      (is_within_budget cfg ctx usage).1 = true) := by
  unfold is_within_budget
  simp only [hadmin, Bool.false_eq_true, if_false, hbl, hidx, hgrp, if_true,
    hmem, hg, Option.getD_some]
  constructor
  · by_cases hge : cfg.monthly_guest_budget ≥ g
    · simp [hge]
    · simp [hge]
  · intro he
    subst he
    simp

/-- Witness for the amended C3, at the counterexample input itself: guest
cost equal to the guest budget is allowed. -/
theorem guest_budget_inclusive_gate_witness :
    (is_within_budget cfgC3 ctxC3 usageC3).1 = true :=
  (guest_budget_inclusive_gate cfgC3 ctxC3 usageC3 [3] "1" 5
    (by decide) (by decide) (by decide) (by decide) (by decide)
    (by decide)).2 (by decide)

/-- Observable events of a priced handler (`prompt`, `image`, `transcribe`),
in program order: the two gate evaluations with their results, the
corresponding refusal messages, the priced backend call
(`get_chat_response(_stream)` / `generate_image` / `transcribe`), and any
other step (chat actions, downloads, decodes, plain replies). -/
inductive HEvent
  | checkAllowed (result : Bool)
  | sentDisallowed
  | checkBudget (result : Bool)
  | sentBudgetMsg
  | pricedCall
  | step
deriving DecidableEq

/-- The common prologue of the three priced handlers (`prompt` lines 297-305,
`image` lines 131-139, `transcribe` lines 176-184): evaluate `is_allowed`;
if it denies, send the disallowed message and return; otherwise evaluate
`is_within_budget`; if it denies, send the budget-reached message and
return; otherwise run the handler body. -/
def gate_prologue (allowed withinBudget : Bool) (body : List HEvent) :
    List HEvent :=
  HEvent.checkAllowed allowed ::
    (if allowed = false then [HEvent.sentDisallowed]
     else HEvent.checkBudget withinBudget ::
       (if withinBudget = false then [HEvent.sentBudgetMsg] else body))

/-- `ChatGPTTelegramBot.prompt` (lines 293-330): after the gates, a group
message neither starting with the trigger keyword nor replying to the bot is
ignored; otherwise the typing action is sent and the chat completion (the
priced call) is requested.  Events after the priced call are elided. -/
def prompt_handler (allowed withinBudget isGroup startsWithTrigger
    isReplyToBot : Bool) : List HEvent :=
  gate_prologue allowed withinBudget
    (if isGroup && !startsWithTrigger && !isReplyToBot then []
     else [HEvent.step, HEvent.pricedCall])

/-- `ChatGPTTelegramBot.image` (lines 127-151): after the gates, an empty
prompt gets a usage hint and returns; otherwise the upload action is sent and
`generate_image` (the priced call) is requested. -/
def image_handler (allowed withinBudget queryEmpty : Bool) : List HEvent :=
  gate_prologue allowed withinBudget
    (if queryEmpty then [HEvent.step]
     else [HEvent.step, HEvent.pricedCall])

/-- `ChatGPTTelegramBot.transcribe` (lines 172-233): after the gates, group
transcriptions may be ignored; a failed download or an unsupported file type
gets an error reply and returns; otherwise `openai.transcribe` (the priced
call) is requested. -/
def transcribe_handler (allowed withinBudget groupIgnored downloadOk
    decodeOk : Bool) : List HEvent :=
  gate_prologue allowed withinBudget
    (if groupIgnored then []
     else if !downloadOk then [HEvent.step]
     else if !decodeOk then [HEvent.step, HEvent.step]
     else [HEvent.step, HEvent.step, HEvent.pricedCall])

/-- The gate prologue lets the priced call through only when both gates
allowed, and then the trace starts with the two checks in order. -/
theorem gate_prologue_priced (allowed withinBudget : Bool)
    (body : List HEvent) :
    (HEvent.pricedCall ∈ gate_prologue allowed withinBudget body →
      allowed = true ∧ withinBudget = true ∧
      (gate_prologue allowed withinBudget body).take 2 =
        [HEvent.checkAllowed true, HEvent.checkBudget true] ∧
      HEvent.pricedCall ∈ body) ∧
    (allowed = false ∨ withinBudget = false →
      HEvent.pricedCall ∉ gate_prologue allowed withinBudget body) := by
  cases allowed <;> cases withinBudget <;>
    simp [gate_prologue]

/-- C8. Gate ordering in every priced handler: a priced backend call occurs
in the trace only when the access-control gate allowed and then the budget
gate allowed — the trace begins with `is_allowed` evaluated first, then
`is_within_budget` — and a denial by either gate means no priced call occurs
anywhere in the trace. -/
theorem gates_precede_priced_call :
    (∀ a b g t r : Bool,
      (HEvent.pricedCall ∈ prompt_handler a b g t r →
        a = true ∧ b = true ∧
        (prompt_handler a b g t r).take 2 =
          [HEvent.checkAllowed true, HEvent.checkBudget true]) ∧
      (a = false ∨ b = false →
        HEvent.pricedCall ∉ prompt_handler a b g t r)) ∧
    (∀ a b q : Bool,
      (HEvent.pricedCall ∈ image_handler a b q →
        a = true ∧ b = true ∧
        (image_handler a b q).take 2 =
          [HEvent.checkAllowed true, HEvent.checkBudget true]) ∧
      (a = false ∨ b = false →
        HEvent.pricedCall ∉ image_handler a b q)) ∧
    (∀ a b gi dl de : Bool,
      (HEvent.pricedCall ∈ transcribe_handler a b gi dl de →
        a = true ∧ b = true ∧
        (transcribe_handler a b gi dl de).take 2 =
          [HEvent.checkAllowed true, HEvent.checkBudget true]) ∧
      (a = false ∨ b = false →
        HEvent.pricedCall ∉ transcribe_handler a b gi dl de)) := by
  refine ⟨?_, ?_, ?_⟩
  · intro a b g t r
    exact ⟨fun h =>
        ((gate_prologue_priced a b _).1 h).imp id (fun h2 => h2.imp id (·.1)),
      (gate_prologue_priced a b _).2⟩
  · intro a b q
    exact ⟨fun h =>
        ((gate_prologue_priced a b _).1 h).imp id (fun h2 => h2.imp id (·.1)),
      (gate_prologue_priced a b _).2⟩
  · intro a b gi dl de
    exact ⟨fun h =>
        ((gate_prologue_priced a b _).1 h).imp id (fun h2 => h2.imp id (·.1)),
      (gate_prologue_priced a b _).2⟩

/-- Witness for C8: in the all-true `prompt` trace a priced call occurs and
the gates head the trace in order; with the budget gate denying, the `image`
trace contains no priced call. -/
theorem gates_precede_priced_call_witness :
    ((prompt_handler true true false false false).take 2 =
      [HEvent.checkAllowed true, HEvent.checkBudget true]) ∧
    HEvent.pricedCall ∉ image_handler true false false :=
  ⟨((gates_precede_priced_call.1 true true false false false).1
      (by decide)).2.2,
   (gates_precede_priced_call.2.1 true false false).2 (Or.inr rfl)⟩
